import Mathlib

/-!
Shallow embedding of the chat-completion orchestration engine of
`src/openai.py` (class OpenAIAPI): content normalisation, parameter
validation, request construction, the tool-call interpreter
(`_execute_tool`), and the two dispatch paths of `_chat_api`
(streaming and non-streaming with retry), together with the `chat`
entry point.  External collaborators (the json module, uuid
generation, and the network transport) are modelled as explicit
oracle parameters; everything the source computes itself is
translated directly.
-/

namespace OpenAIApi

/-- Python values handled by the `json` module (dicts are ordered
association lists, mirroring insertion order of dict literals). -/
inductive Json where
  | null : Json
  | bool (b : Bool) : Json
  | num (n : Int) : Json
  | str (s : String) : Json
  | arr (xs : List Json) : Json
  | obj (fields : List (String × Json)) : Json

/-- A Python dict with string keys, as used for content parts. -/
abbrev Dict := List (String × Json)

/-- Python membership test `k in d` on a dict. -/
def hasKey (d : Dict) (k : String) : Bool :=
  d.any (fun p => p.1 == k)

/-- Python subscript `d[k]` as an Option (`none` models a KeyError). -/
def dictGet (d : Dict) (k : String) : Option Json :=
  (d.find? (fun p => p.1 == k)).map (fun p => p.2)

/-- Python truthiness of an optional string (`None` and `""` are falsy):
used for `if delta.content:`, `if system_instruction:`, etc. -/
def strTruthy : Option String → Bool
  | some s => s != ""
  | none => false

/-- Python `x or ""` on an optional string (source: `message.content or ""`). -/
def orEmpty : Option String → String
  | some s => s
  | none => ""

/-- Python `x or d` on an optional string with a default (`tool_call.id or
f"call_..."`): the default is taken when `x` is None or empty. -/
def orDefault : Option String → String → String
  | some s, d => if s == "" then d else s
  | none, d => d

/-- Python truthiness of an optional bool (`if response_logprobs ...`). -/
def obTruthy : Option Bool → Bool
  | some b => b
  | none => false

/-- Python truthiness of a Json value (`if response_format:`). -/
def jsonTruthy : Json → Bool
  | .null => false
  | .bool b => b
  | .num n => n != 0
  | .str s => s != ""
  | .arr xs => !xs.isEmpty
  | .obj fs => !fs.isEmpty

/-- `tool_call.function` of the transport object: a name and the raw
arguments string. -/
structure FunctionSpec where
  name : String
  arguments : String
deriving Repr, DecidableEq

/-- A transport-level tool call handed to `_execute_tool`
(`tool_call.id` may be absent). An absent or empty name is falsy in
Python; the empty string models both. -/
structure ToolCall where
  id : Option String
  function : FunctionSpec
deriving Repr, DecidableEq

/-- A caller-supplied tool: the invocation either returns a value or
raises (`Except.error` carries `str(e)`); `paramNames` models
`func.__code__` introspection (`none` when the callable has no
`__code__`), and `doc` models `func.__doc__`. -/
structure ToolEntry where
  fn : Dict → Except String Json
  paramNames : Option (List String) := none
  doc : Option String := none

/-- The caller-supplied tool registry (`tools` argument): name to callable. -/
abbrev ToolRegistry := List (String × ToolEntry)

/-- Python `func(**args)`: `args` must be a mapping, otherwise a
TypeError is raised (inside the `try`, so it is captured per call). -/
def callTool (e : ToolEntry) (args : Json) : Except String Json :=
  match args with
  | .obj fields => e.fn fields
  | _ => .error "TypeError: argument after ** must be a mapping"

/-- One entry of `_execute_tool`'s result: the tool-role message dict
(`content` holds the Json value passed to `json.dumps`). -/
structure ToolResponse where
  role : String
  content : Json
  tool_call_id : String

/-- Body of `_execute_tool` (src/openai.py lines 127-173).
`parse` is the `json.loads` oracle (`none` = JSONDecodeError, which the
source does not catch here, so it aborts the whole loop); `freshId`
is the `uuid.uuid4` oracle, seeded by position `k`; `tools` is `None`
or the registry (`None.get` raises an AttributeError).  A falsy name
hits `continue`; a found tool is invoked with the parsed arguments and
an exception is captured into an `error` envelope; an unknown tool
yields the not-found envelope. -/
def executeToolAux (parse : String → Option Json) (freshId : Nat → String)
    (tools : Option ToolRegistry) :
    List ToolCall → Nat → Except String (List (ToolResponse × String))
  | [], _ => .ok []
  | tc :: rest, k =>
    if tc.function.name == "" then
      executeToolAux parse freshId tools rest (k + 1)
    else
      let tool_call_id := orDefault tc.id (freshId k)
      match parse tc.function.arguments with
      | none => .error "json.JSONDecodeError"
      | some args =>
        match tools with
        | none => .error "AttributeError: NoneType object has no attribute get"
        | some reg =>
          let resp : ToolResponse :=
            match reg.lookup tc.function.name with
            | some e =>
              match callTool e args with
              | .ok v => ⟨"tool", v, tool_call_id⟩
              | .error msg =>
                ⟨"tool",
                 Json.obj [("error",
                   Json.str ("函数 " ++ tc.function.name ++ " 执行失败: " ++ msg))],
                 tool_call_id⟩
            | none =>
              ⟨"tool",
               Json.obj [("error", Json.str ("未找到工具 " ++ tc.function.name))],
               tool_call_id⟩
          match executeToolAux parse freshId tools rest (k + 1) with
          | .ok tail => .ok ((resp, tool_call_id) :: tail)
          | .error e => .error e

/-- `_execute_tool(tool_calls, tools)`, uuid oracle seeded at 0. -/
def executeTool (parse : String → Option Json) (freshId : Nat → String)
    (toolCalls : List ToolCall) (tools : Option ToolRegistry) :
    Except String (List (ToolResponse × String)) :=
  executeToolAux parse freshId tools toolCalls 0

/-! ## Content Normalizer (src/openai.py lines 209-238) -/

/-- The `content` field of a caller or engine message: a plain string,
a list of content-part dicts, or any other Python value (which the
normalizer rejects). -/
inductive HContent where
  | text (s : String)
  | parts (ps : List Dict)
  | other

/-- Normalisation of one element of a structured content list
(the body of the `for part in content` loop): classified by which of
the keys `text`, `input_file`, `input_image` it carries; an element
carrying none of them falls through the if/elif chain and is skipped
(`.ok none`).  Inner subscript/membership failures raise
(`.error`). -/
def normalizePart (part : Dict) : Except String (Option Dict) :=
  match dictGet part "text" with
  | some v => .ok (some [("type", Json.str "text"), ("text", v)])
  | none =>
  match dictGet part "input_file" with
  | some fv =>
    match fv with
    | Json.obj fd =>
      match dictGet fd "file_id" with
      | some fid => .ok (some [("type", Json.str "input_file"), ("file_id", fid)])
      | none =>
        match dictGet fd "filename", dictGet fd "file_data" with
        | some fn, some fdat =>
          .ok (some [("type", Json.str "input_file"), ("filename", fn), ("file_data", fdat)])
        | _, _ => .error "KeyError"
    | _ => .error "TypeError"
  | none =>
  match dictGet part "input_image" with
  | some iv =>
    match iv with
    | Json.obj idd =>
      match dictGet idd "image_url" with
      | some url =>
        let detail := (dictGet idd "detail").getD (Json.str "auto")
        .ok (some [("type", Json.str "image_url"),
                   ("image_url", Json.obj [("url", url), ("detail", detail)])])
      | none => .error "KeyError"
    | _ => .error "TypeError"
  | none => .ok none

/-- The structured-list loop: normalise each element in order, keeping
the produced parts and dropping skipped elements; the first raise
aborts. -/
def normalizeParts : List Dict → Except String (List Dict)
  | [] => .ok []
  | p :: rest => do
    let r ← normalizePart p
    let tail ← normalizeParts rest
    match r with
    | some d => .ok (d :: tail)
    | none => .ok tail

/-- Content Normalizer for one message: a plain string becomes a single
text part, a list is normalised element-wise, and any other content
shape raises the ValueError of line 238. -/
def normalizeContent : HContent → Except String (List Dict)
  | .text s => .ok [[("type", Json.str "text"), ("text", Json.str s)]]
  | .parts ps => normalizeParts ps
  | .other => .error "ValueError: 无效的消息内容格式"

/-! ## History messages and api messages -/

/-- A buffered tool call as stored in history assistant messages
(dicts of the form id/type:function/function:name,arguments; the
constant `type` entry is left implicit). -/
structure BufferedCall where
  id : String
  name : String
  arguments : String
deriving Repr, DecidableEq

/-- A message dict in the caller-owned history: role, content, and the
optional keys the engine writes (`tool_calls`, `tool_call_id`,
`logprobs`).  `logprobs` holds the serialized
`choice.logprobs.content`. -/
structure HMsg where
  role : String
  content : HContent
  tool_calls : Option (List BufferedCall) := none
  tool_call_id : Option String := none
  logprobs : Option String := none

/-- A wire-level message as assembled at lines 239-257. -/
structure ApiMsg where
  role : String
  content : List Dict
  tool_calls : Option (List BufferedCall) := none
  tool_call_id : Option String := none

/-- Lines 209-257: build one api message from a history message
(normalising its content; `tool_calls`/`tool_call_id` are copied when
present). -/
def buildApiMessage (m : HMsg) : Except String ApiMsg := do
  let c ← normalizeContent m.content
  .ok { role := m.role, content := c,
        tool_calls := m.tool_calls, tool_call_id := m.tool_call_id }

/-- The whole message-construction loop; the first raise aborts. -/
def buildApiMessages : List HMsg → Except String (List ApiMsg)
  | [] => .ok []
  | m :: rest => do
    let a ← buildApiMessage m
    let tail ← buildApiMessages rest
    .ok (a :: tail)

/-! ## Parameter Validator and request construction (lines 196-311) -/

/-- The optional sampling parameters of `_chat_api`/`chat`. -/
structure ChatParams where
  max_output_tokens : Option Int := none
  topp : Option Rat := none
  temperature : Option Rat := none
  presence_penalty : Option Rat := none
  frequency_penalty : Option Rat := none
  stop_sequences : Option (List String) := none
  response_format : Option Json := none
  seed : Option Int := none
  response_logprobs : Option Bool := none
  logprobs : Option Int := none

/-- `x is not None and (x < lo or x > hi)` for a rational parameter. -/
def outOfRange (x : Option Rat) (lo hi : Rat) : Bool :=
  match x with
  | some v => decide (v < lo) || decide (v > hi)
  | none => false

/-- `x is not None and (x < lo or x > hi)` for an integer parameter. -/
def outOfRangeInt (x : Option Int) (lo hi : Int) : Bool :=
  match x with
  | some v => decide (v < lo) || decide (v > hi)
  | none => false

/-- The validation block of lines 196-206, in source order; the first
violated range raises a ValueError naming the parameter. -/
def validateParams (p : ChatParams) : Except String Unit :=
  if outOfRange p.topp 0 1 then .error "top_p 必须在 0 到 1 之间"
  else if outOfRange p.temperature 0 2 then .error "temperature 必须在 0 到 2 之间"
  else if outOfRange p.presence_penalty (-2) 2 then .error "presence_penalty 必须在 -2 到 2 之间"
  else if outOfRange p.frequency_penalty (-2) 2 then .error "frequency_penalty 必须在 -2 到 2 之间"
  else if outOfRangeInt p.logprobs 0 20 then .error "logprobs 必须在 0 到 20 之间"
  else .ok ()

/-- The `request_params` dict (lines 260-311): absent optional keys are
`none`. -/
structure RequestParams where
  model : String
  messages : List ApiMsg
  stream : Bool
  max_tokens : Option Int := none
  top_p : Option Rat := none
  temperature : Option Rat := none
  stop : Option (List String) := none
  presence_penalty : Option Rat := none
  frequency_penalty : Option Rat := none
  seed : Option Int := none
  logprobs : Option Bool := none
  top_logprobs : Option Int := none
  response_format : Option Json := none
  tools : Option (List Json) := none

/-- Tool Schema Builder (lines 289-310): parameter schema derived from
the callable's argument names, every argument a required string; the
fallback `arg` property when the callable has no `__code__`. -/
def toolParamsSchema (e : ToolEntry) : Json :=
  match e.paramNames with
  | some ns =>
    Json.obj [("type", Json.str "object"),
              ("properties", Json.obj (ns.map (fun n => (n, Json.obj [("type", Json.str "string")])))),
              ("required", Json.arr (ns.map Json.str)),
              ("additionalProperties", Json.bool false)]
  | none =>
    Json.obj [("type", Json.str "object"),
              ("properties", Json.obj [("arg", Json.obj [("type", Json.str "string")])]),
              ("required", Json.arr [Json.str "arg"]),
              ("additionalProperties", Json.bool false)]

/-- One tool definition (lines 303-310).  `getattr(func, "__doc__",
fallback)` returns the docstring, or None when the callable has none
(functions always expose the attribute, so the generated fallback
string is not reached for them); `none` is serialized as null. -/
def toolDefinition (name : String) (e : ToolEntry) : Json :=
  Json.obj [("type", Json.str "function"),
            ("function", Json.obj
              [("name", Json.str name),
               ("description", match e.doc with | some d => Json.str d | none => Json.null),
               ("parameters", toolParamsSchema e)])]

/-- Request construction (lines 260-311): each optional key is set only
when the parameter was supplied; `logprobs`/`top_logprobs` follow the
nested `response_logprobs` conditional; `response_format` is attached
only when truthy; tool definitions are attached when a registry was
supplied. -/
def buildRequestParams (model : String) (apiMessages : List ApiMsg) (stream : Bool)
    (p : ChatParams) (tools : Option ToolRegistry) : RequestParams :=
  { model := model
    messages := apiMessages
    stream := stream
    max_tokens := p.max_output_tokens
    top_p := p.topp
    temperature := p.temperature
    stop := p.stop_sequences
    presence_penalty := p.presence_penalty
    frequency_penalty := p.frequency_penalty
    seed := p.seed
    logprobs := p.response_logprobs
    top_logprobs := match p.response_logprobs with
      | some _ => p.logprobs
      | none => none
    response_format := match p.response_format with
      | some j => if jsonTruthy j then some j else none
      | none => none
    tools := tools.map (fun reg => reg.map (fun nt => toolDefinition nt.1 nt.2)) }

/-- Lines 375-377 and 435-437: `request_params.copy()` with the
augmented message list and `stream` forced off. -/
def secondRequestParams (rp : RequestParams) (augmented : List ApiMsg) : RequestParams :=
  { rp with messages := augmented, stream := false }

/-! ## Responses, fragments and the turn state -/

/-- A completed response message (`choice.message`): `tool_calls` is
the empty list when the transport sent none (both None and an empty
list are falsy at line 408). -/
structure RespMessage where
  content : Option String := none
  tool_calls : List ToolCall := []
  reasoning_content : Option String := none

/-- One `choice` of a completed response; `logprobs` carries the
serialized `choice.logprobs.content` when the transport returned a
(truthy) logprobs object. -/
structure RespChoice where
  message : RespMessage
  logprobs : Option String := none

/-- A completed (non-streaming) response. -/
structure Resp where
  choices : List RespChoice

/-- One fragment yielded to the caller.  The generator yields plain
strings; the constructor records which yield statement produced it and
`fragString` recovers the exact string. -/
inductive Frag where
  | reasoning (s : String)
  | content (s : String)
  | contentWithLogprobs (s : String) (lp : String)
  | errorFrag (e : String)

/-- The exact string each fragment constructor stands for. -/
def fragString : Frag → String
  | .reasoning s => "REASONING: " ++ s
  | .content s => s
  | .contentWithLogprobs s lp => s ++ "\nLogprobs: " ++ lp
  | .errorFrag e => "错误: 无法获取最终响应 - " ++ e

/-- Concatenation of the plain content fragments of an output sequence
(reasoning fragments and error fragments excluded). -/
def contentConcat : List Frag → String
  | [] => ""
  | .content s :: rest => s ++ contentConcat rest
  | .reasoning _ :: rest => contentConcat rest
  | .contentWithLogprobs _ _ :: rest => contentConcat rest
  | .errorFrag _ :: rest => contentConcat rest

/-- The observable state of one `_chat_api` turn: the caller-owned
history, the fragments yielded so far, how many times `_execute_tool`
has run, how many network calls have been issued, the seed for the
uuid oracle, and (streaming only) the running assistant-content buffer
and the tool-call buffer. -/
structure TurnState where
  messages : List HMsg
  yielded : List Frag := []
  toolExecs : Nat := 0
  netCalls : Nat := 0
  uuidCtr : Nat := 0
  assistantContent : String := ""
  buffer : List BufferedCall := []

/-- The tool-role history message for one `_execute_tool` result
(lines 367-374 and 427-434): content is `json.dumps` of the result
payload, via the `dumps` oracle. -/
def toolMessageOf (dumps : Json → String) (r : ToolResponse × String) : HMsg :=
  { role := "tool", content := .text (dumps r.1.content), tool_call_id := some r.2 }

/-- The assistant placeholder message recording the tool calls of a
turn (lines 348-352 and 419-423). -/
def toolCallAssistantMsg (calls : List BufferedCall) : HMsg :=
  { role := "assistant", content := .text "Tool calls executed", tool_calls := some calls }

/-! ## Non-streaming path (lines 402-473) -/

/-- One iteration of the non-streaming retry loop (the `try` body of
lines 403-468).  `net` is the transport oracle, indexed by the number
of network calls issued so far; an `Except.error` models the call
raising.  Returns the state as mutated by the attempt together with
`none` on success (`break`) or `some e` when the body raised. -/
def attemptOnce (net : Nat → Except String Resp) (parse : String → Option Json)
    (freshId : Nat → String) (dumps : Json → String) (tools : Option ToolRegistry)
    (response_logprobs : Option Bool) (st : TurnState) : TurnState × Option String :=
  match net st.netCalls with
  | .error e => ({ st with netCalls := st.netCalls + 1 }, some e)
  | .ok resp =>
    let st1 := { st with netCalls := st.netCalls + 1 }
    match resp.choices.head? with
    | none => (st1, some "IndexError: list index out of range")
    | some choice =>
      let message := choice.message
      match message.tool_calls with
      | [] =>
        -- lines 451-467: plain assistant reply
        let am : HMsg := { role := "assistant", content := .text (orEmpty message.content) }
        let y1 := if strTruthy message.reasoning_content
                  then [Frag.reasoning (orEmpty message.reasoning_content)] else []
        if obTruthy response_logprobs && choice.logprobs.isSome then
          let lp := orEmpty choice.logprobs
          ({ st1 with
             messages := st1.messages ++ [{ am with logprobs := some lp }],
             yielded := st1.yielded ++ y1 ++ [Frag.contentWithLogprobs (orEmpty message.content) lp] },
           none)
        else
          let y2 := if strTruthy message.content then [Frag.content (orEmpty message.content)] else []
          ({ st1 with
             messages := st1.messages ++ [am],
             yielded := st1.yielded ++ y1 ++ y2 }, none)
      | tc0 :: tcRest =>
        -- lines 408-450: tool round-trip
        let tcs := tc0 :: tcRest
        let n := tcs.length
        let materialized : List BufferedCall :=
          tcs.enum.map (fun p =>
            { id := orDefault p.2.id (freshId (st1.uuidCtr + p.1))
              name := p.2.function.name
              arguments := p.2.function.arguments })
        let msgs1 := st1.messages ++ [toolCallAssistantMsg materialized]
        match executeToolAux parse freshId tools tcs (st1.uuidCtr + n) with
        | .error e =>
          ({ st1 with messages := msgs1, toolExecs := st1.toolExecs + 1,
                      uuidCtr := st1.uuidCtr + 2 * n }, some e)
        | .ok responses =>
          let msgs2 := msgs1 ++ responses.map (toolMessageOf dumps)
          let st2 := { st1 with messages := msgs2, toolExecs := st1.toolExecs + 1,
                                uuidCtr := st1.uuidCtr + 2 * n }
          match net st2.netCalls with
          | .error e => ({ st2 with netCalls := st2.netCalls + 1 }, some e)
          | .ok resp2 =>
            let st3 := { st2 with netCalls := st2.netCalls + 1 }
            match resp2.choices.head? with
            | none => (st3, some "IndexError: list index out of range")
            | some choice2 =>
              -- lines 442-450: the second response's message is recorded
              -- as a plain assistant message; its tool calls (if any) are
              -- never inspected or executed.
              let m2 := choice2.message
              let y1 := if strTruthy m2.reasoning_content
                        then [Frag.reasoning (orEmpty m2.reasoning_content)] else []
              let y2 := if strTruthy m2.content then [Frag.content (orEmpty m2.content)] else []
              ({ st3 with
                 messages := st3.messages ++ [{ role := "assistant", content := .text (orEmpty m2.content) }],
                 yielded := st3.yielded ++ y1 ++ y2 }, none)

/-- The retry loop of lines 402-473: `fuel` is the number of remaining
attempts (`retries`).  A successful body breaks out; a raising body is
retried from the state it left behind, except on the last attempt,
where the exception propagates.  With `retries = 0` the loop body
never runs. -/
def retryLoop (step : TurnState → TurnState × Option String) :
    Nat → TurnState → TurnState × Option String
  | 0, st => (st, none)
  | 1, st => step st
  | n + 2, st =>
    match step st with
    | (st1, none) => (st1, none)
    | (st1, some _) => retryLoop step (n + 1) st1

/-! ## Streaming path (lines 316-400) -/

/-- `tool_call.function` of a stream delta: both fields may be absent. -/
structure DeltaFn where
  name : Option String := none
  arguments : Option String := none

/-- One element of `delta.tool_calls` (the element itself may be None). -/
structure DeltaToolCall where
  id : Option String := none
  function : Option DeltaFn := none

/-- A stream delta. -/
structure Delta where
  reasoning_content : Option String := none
  content : Option String := none
  tool_calls : List (Option DeltaToolCall) := []

/-- One choice of a stream chunk. -/
structure ChunkChoice where
  delta : Delta
  finish_reason : Option String := none

/-- One stream chunk. -/
structure Chunk where
  choices : List ChunkChoice

/-- Lines 329-346: fold the tool-call fragments of one delta into the
buffer.  An element that is None or lacks `.function` is skipped;
otherwise the id is taken or generated, absent arguments default to
`"\x7b\x7d"`, and a fragment whose arguments fail `json.loads` is
discarded (`continue`). -/
def bufferCalls (parse : String → Option Json) (freshId : Nat → String)
    (st : TurnState) : List (Option DeltaToolCall) → TurnState
  | [] => st
  | none :: rest => bufferCalls parse freshId st rest
  | some tc :: rest =>
    match tc.function with
    | none => bufferCalls parse freshId st rest
    | some f =>
      let cid := orDefault tc.id (freshId st.uuidCtr)
      let args := orDefault f.arguments "\x7b\x7d"
      let st1 := { st with uuidCtr := st.uuidCtr + 1 }
      match parse args with
      | some _ =>
        bufferCalls parse freshId
          { st1 with buffer := st1.buffer ++ [{ id := cid, name := orEmpty f.name, arguments := args }] }
          rest
      | none => bufferCalls parse freshId st1 rest

/-- A buffered call replayed as a `ToolCall` object (lines 356-364). -/
def bufferedToToolCall (b : BufferedCall) : ToolCall :=
  { id := some b.id, function := { name := b.name, arguments := b.arguments } }

/-- Lines 347-396: the streaming tool round-trip, entered when the
chunk signals `finish_reason == "tool_calls"` with a non-empty buffer.
The assistant placeholder and the tool messages are appended, then the
second request is issued inside a `try`: a failure there (transport
error, or the IndexError of `choices[0]`) is downgraded to an inline
error fragment plus an error-marked assistant history entry and the
generator continues; only an exception out of `_execute_tool` itself
propagates. -/
def toolRoundTrip (net : Nat → Except String Resp) (parse : String → Option Json)
    (freshId : Nat → String) (dumps : Json → String) (tools : Option ToolRegistry)
    (st : TurnState) : TurnState × Option String :=
  let st1 := { st with messages := st.messages ++ [toolCallAssistantMsg st.buffer] }
  match executeToolAux parse freshId tools (st1.buffer.map bufferedToToolCall) st1.uuidCtr with
  | .error e => ({ st1 with toolExecs := st1.toolExecs + 1 }, some e)
  | .ok responses =>
    let st2 := { st1 with messages := st1.messages ++ responses.map (toolMessageOf dumps),
                          toolExecs := st1.toolExecs + 1 }
    match net st2.netCalls with
    | .error e =>
      ({ st2 with netCalls := st2.netCalls + 1,
                  yielded := st2.yielded ++ [Frag.errorFrag e],
                  messages := st2.messages ++ [{ role := "assistant", content := .text ("错误: " ++ e) }],
                  buffer := [] }, none)
    | .ok resp2 =>
      let st3 := { st2 with netCalls := st2.netCalls + 1 }
      match resp2.choices.head? with
      | none =>
        ({ st3 with yielded := st3.yielded ++ [Frag.errorFrag "IndexError: list index out of range"],
                    messages := st3.messages ++
                      [{ role := "assistant", content := .text ("错误: " ++ "IndexError: list index out of range") }],
                    buffer := [] }, none)
      | some choice2 =>
        let m2 := choice2.message
        let y1 := if strTruthy m2.reasoning_content
                  then [Frag.reasoning (orEmpty m2.reasoning_content)] else []
        let y2 := if strTruthy m2.content then [Frag.content (orEmpty m2.content)] else []
        ({ st3 with
           messages := st3.messages ++ [{ role := "assistant", content := .text (orEmpty m2.content) }],
           yielded := st3.yielded ++ y1 ++ y2,
           buffer := [] }, none)

/-- Lines 397-400: on a `stop`/`length` finish the accumulated
assistant content, when non-empty, is appended as one assistant
message, and the buffer string is reset. -/
def finishCheck (c0 : ChunkChoice) (st : TurnState) : TurnState :=
  if c0.finish_reason == some "stop" || c0.finish_reason == some "length" then
    let st1 :=
      if st.assistantContent != "" then
        { st with messages := st.messages ++ [{ role := "assistant", content := .text st.assistantContent }] }
      else st
    { st1 with assistantContent := "" }
  else st

/-- The content/tool-call part of one stream-chunk step (lines
325-396), taken after the reasoning yield: content is yielded and
accumulated; otherwise tool-call fragments are buffered and, on the
`tool_calls` finish signal with a non-empty buffer, the tool
round-trip runs; the `stop`/`length` check of lines 397-400 follows on
the same chunk. -/
def streamStepCore (net : Nat → Except String Resp) (parse : String → Option Json)
    (freshId : Nat → String) (dumps : Json → String) (tools : Option ToolRegistry)
    (c0 : ChunkChoice) (st1 : TurnState) : TurnState × Option String :=
  let delta := c0.delta
  if strTruthy delta.content then
    let s := orEmpty delta.content
    (finishCheck c0
      { st1 with yielded := st1.yielded ++ [Frag.content s],
                 assistantContent := st1.assistantContent ++ s }, none)
  else if !delta.tool_calls.isEmpty then
    let st2 := bufferCalls parse freshId st1 delta.tool_calls
    if c0.finish_reason == some "tool_calls" && !st2.buffer.isEmpty then
      match toolRoundTrip net parse freshId dumps tools st2 with
      | (st3, none) => (finishCheck c0 st3, none)
      | (st3, some e) => (st3, some e)
    else (finishCheck c0 st2, none)
  else (finishCheck c0 st1, none)

/-- Processing of one stream chunk (the body of the `async for` loop,
lines 321-400): chunks without choices are skipped; reasoning text is
yielded first; then the content/tool-call step runs. -/
def streamStep (net : Nat → Except String Resp) (parse : String → Option Json)
    (freshId : Nat → String) (dumps : Json → String) (tools : Option ToolRegistry)
    (st : TurnState) (ck : Chunk) : TurnState × Option String :=
  match ck.choices.head? with
  | none => (st, none)
  | some c0 =>
    let st1 := if strTruthy c0.delta.reasoning_content
               then { st with yielded := st.yielded ++ [Frag.reasoning (orEmpty c0.delta.reasoning_content)] }
               else st
    streamStepCore net parse freshId dumps tools c0 st1

/-- The whole streaming consumption loop: chunks are consumed in
order; an uncaught exception aborts the generator with the state it
had reached. -/
def streamLoop (net : Nat → Except String Resp) (parse : String → Option Json)
    (freshId : Nat → String) (dumps : Json → String) (tools : Option ToolRegistry) :
    List Chunk → TurnState → TurnState × Option String
  | [], st => (st, none)
  | ck :: rest, st =>
    match streamStep net parse freshId dumps tools st ck with
    | (st1, none) => streamLoop net parse freshId dumps tools rest st1
    | (st1, some e) => (st1, some e)

/-! ## `_chat_api` and `chat` (lines 175-509) -/

/-- `_chat_api`: validate the sampling parameters, assemble the api
messages, build the request, then dispatch on `stream`.  The request
object itself is consumed by the transport oracle; the streaming
transport is the given chunk list. -/
def chatApi (net : Nat → Except String Resp) (parse : String → Option Json)
    (freshId : Nat → String) (dumps : Json → String) (chunks : List Chunk)
    (model : String) (messagesIn : List HMsg) (stream : Bool)
    (tools : Option ToolRegistry) (p : ChatParams) (retries : Nat) :
    TurnState × Option String :=
  let st0 : TurnState := { messages := messagesIn }
  match validateParams p with
  | .error e => (st0, some e)
  | .ok _ =>
    match buildApiMessages messagesIn with
    | .error e => (st0, some e)
    | .ok apiMsgs =>
      let _rp := buildRequestParams model apiMsgs stream p tools
      if stream then
        streamLoop net parse freshId dumps tools chunks st0
      else
        retryLoop (attemptOnce net parse freshId dumps tools p.response_logprobs) retries st0

/-- The `messages` argument of `chat`: a plain string or the
caller-owned message list. -/
inductive ChatInput where
  | plain (s : String)
  | list (ms : List HMsg)

/-- The user message built for a plain-string input (line 497). -/
def userTextMsg (s : String) : HMsg :=
  { role := "user", content := .parts [[("type", Json.str "text"), ("text", Json.str s)]] }

/-- A plain assistant history message. -/
def assistantTextMsg (s : String) : HMsg :=
  { role := "assistant", content := .text s }

/-- The system message inserted at position 0 (line 499). -/
def sysTextMsg (s : String) : HMsg :=
  { role := "system", content := .parts [[("type", Json.str "text"), ("text", Json.str s)]] }

/-- Lines 496-499: wrap a plain-string input into a fresh single-user
history, then, when a truthy system instruction is supplied, insert a
system message at the front of the (caller-owned) list. -/
def chatSetup (input : ChatInput) (system_instruction : Option String) : List HMsg :=
  let ms := match input with
    | .plain s => [userTextMsg s]
    | .list ms => ms
  if strTruthy system_instruction then sysTextMsg (orEmpty system_instruction) :: ms
  else ms

/-- The `chat` entry point: set up the history, then delegate to
`_chat_api`. -/
def chat (net : Nat → Except String Resp) (parse : String → Option Json)
    (freshId : Nat → String) (dumps : Json → String) (chunks : List Chunk)
    (model : String) (input : ChatInput) (stream : Bool)
    (tools : Option ToolRegistry) (system_instruction : Option String)
    (p : ChatParams) (retries : Nat) : TurnState × Option String :=
  chatApi net parse freshId dumps chunks model (chatSetup input system_instruction)
    stream tools p retries

/-! ## Concrete oracles and fixtures used by witnesses -/

/-- A concrete `json.loads` oracle: accepts exactly the string `"ok"`
(as the empty object) and rejects everything else. -/
def parseFix : String → Option Json :=
  fun s => if s == "ok" then some (Json.obj []) else none

/-- A concrete uuid oracle. -/
def freshFix : Nat → String := fun n => "call_" ++ toString n

/-- A concrete `json.dumps` oracle. -/
def dumpsFix : Json → String := fun _ => "(json)"

/-- A concrete tool that returns a string. -/
def toolFix : ToolEntry := { fn := fun _ => .ok (Json.str "result") }

/-- A one-tool registry. -/
def regFix : ToolRegistry := [("t", toolFix)]

/-- A tool call with a falsy (empty) name. -/
def emptyNameCall : ToolCall := ⟨some "id1", ⟨"", "ok"⟩⟩

/-- A tool call whose arguments string does not parse as JSON. -/
def badArgsCall : ToolCall := ⟨some "id1", ⟨"t", "bad"⟩⟩

/-- A well-formed tool call. -/
def okCall : ToolCall := ⟨some "id2", ⟨"t", "ok"⟩⟩

/-- The tool_call_id each request in a list receives, in request
order: the transport id when truthy, otherwise the uuid generated at
that position. -/
def expectedIds (freshId : Nat → String) : List ToolCall → Nat → List String
  | [], _ => []
  | tc :: rest, k => orDefault tc.id (freshId k) :: expectedIds freshId rest (k + 1)

/-- The tool-call-bearing first response used by concrete turns. -/
def respToolC3 : Resp :=
  ⟨[{ message := { content := none, tool_calls := [⟨some "id1", ⟨"t", "ok"⟩⟩],
                   reasoning_content := none } }]⟩

/-- A transport oracle whose first call returns a tool-call response
and whose later calls all fail. -/
def netC3 : Nat → Except String Resp := fun n =>
  if n == 0 then .ok respToolC3 else .error "boom"

/-- A transport oracle that always fails. -/
def netErr : Nat → Except String Resp := fun _ => .error "unused"

/-- A plain final response. -/
def respFinal : Resp := ⟨[{ message := { content := some "done" } }]⟩

/-- A transport oracle for the retry scenario: tool-call responses,
except that the second call fails and the fourth returns the final
reply. -/
def netC10 : Nat → Except String Resp := fun k =>
  if k == 1 then .error "boom"
  else if k == 3 then .ok respFinal
  else .ok respToolC3

/-- The initial turn state of the retry scenario. -/
def stC10 : TurnState := { messages := [userTextMsg "hi"] }

/-- The state left behind by its first (failing) attempt. -/
def stC10a : TurnState :=
  (attemptOnce netC10 parseFix freshFix dumpsFix (some regFix) none stC10).1

/-- The caller's history grows only at the end: the new list is the
old list plus a (possibly empty) appended tail. -/
def growsFrom (old new : List HMsg) : Prop := ∃ t, new = old ++ t

/-- A stream chunk with one choice carrying no finish signal and no
tool-call fragments. -/
def plainChunk (ck : Chunk) : Prop :=
  ∃ d, ck.choices = [⟨d, none⟩] ∧ d.tool_calls = []

/-- A stream chunk with one choice signalling normal or length-limited
completion and no tool-call fragments. -/
def stopChunk (ck : Chunk) : Prop :=
  ∃ d fr, ck.choices = [⟨d, some fr⟩] ∧ d.tool_calls = []
    ∧ (fr = "stop" ∨ fr = "length")

/-! ## Dict lemmas -/

/-- A dict that carries a key yields a value for it. -/
theorem dictGet_of_hasKey {d : Dict} {k : String} (h : hasKey d k = true) :
    ∃ v, dictGet d k = some v := by
  induction d with
  | nil => exact absurd h (by simp [hasKey])
  | cons p rest ih =>
    cases hp : (p.1 == k) with
    | true =>
      refine ⟨p.2, ?_⟩
      simp [dictGet, List.find?_cons, hp]
    | false =>
      have h' : hasKey rest k = true := by
        unfold hasKey at h
        rw [List.any_cons, hp, Bool.false_or] at h
        exact h
      obtain ⟨v, hv⟩ := ih h'
      refine ⟨v, ?_⟩
      unfold dictGet at hv
      simp [dictGet, List.find?_cons, hp, hv]

/-- A dict that does not carry a key yields no value for it. -/
theorem dictGet_of_not_hasKey {d : Dict} {k : String} (h : hasKey d k = false) :
    dictGet d k = none := by
  induction d with
  | nil => rfl
  | cons p rest ih =>
    unfold hasKey at h
    rw [List.any_cons, Bool.or_eq_false_iff] at h
    have hrest := ih h.2
    unfold dictGet at hrest
    simp [dictGet, List.find?_cons, h.1, hrest]

/-! ## Claim C1 -/

/-- One reduction step of `executeToolAux` on a well-formed head call:
some content `c` is produced (result, error envelope, or not-found
envelope) and the head result carries the head call's id, ahead of the
results of the remaining calls. -/
theorem executeToolAux_cons_ok (parse : String → Option Json) (freshId : Nat → String)
    (reg : ToolRegistry) (tc : ToolCall) (rest : List ToolCall) (k : Nat) (args : Json)
    (hb : (tc.function.name == "") = false)
    (hargs : parse tc.function.arguments = some args) :
    ∃ c : Json,
      executeToolAux parse freshId (some reg) (tc :: rest) k
        = match executeToolAux parse freshId (some reg) rest (k + 1) with
          | .ok tail =>
            .ok ((⟨"tool", c, orDefault tc.id (freshId k)⟩, orDefault tc.id (freshId k)) :: tail)
          | .error e => .error e := by
  rcases hlk : reg.lookup tc.function.name with _ | e
  · refine ⟨Json.obj [("error", Json.str ("未找到工具 " ++ tc.function.name))], ?_⟩
    simp only [executeToolAux, hb, Bool.false_eq_true, if_false, hargs, hlk]
  · rcases hct : callTool e args with msg | v
    · refine ⟨Json.obj [("error",
        Json.str ("函数 " ++ tc.function.name ++ " 执行失败: " ++ msg))], ?_⟩
      simp only [executeToolAux, hb, Bool.false_eq_true, if_false, hargs, hlk, hct]
    · refine ⟨v, ?_⟩
      simp only [executeToolAux, hb, Bool.false_eq_true, if_false, hargs, hlk, hct]

/-- Claim C1 counterexample: one ToolCallRequest with a falsy name
yields zero ToolResults, not one — the interpreter `continue`s past
it, so a turn with N = 1 tool calls produces 0 tool-role messages. -/
theorem c1_counterexample :
    executeTool parseFix freshFix [emptyNameCall] (some regFix) = .ok []
    ∧ [emptyNameCall].length = 1 :=
  ⟨rfl, rfl⟩

/-- Claim C1 (amended): when a tool registry was supplied and every
request in the turn carries a non-empty name and arguments accepted by
`json.loads`, `_execute_tool` returns exactly N ToolResults for N
requests, in request order: every result is a tool-role message, and
the sequence of result ids equals the sequence of request ids in
request position order — even when a tool is unknown or raises.  (The
original claim fails for a request with a falsy name, which is
skipped, and for arguments that do not parse, which abort the
loop.) -/
theorem c1_theorem (parse : String → Option Json) (freshId : Nat → String)
    (reg : ToolRegistry) (calls : List ToolCall) (k : Nat)
    (h : ∀ tc ∈ calls, tc.function.name ≠ "" ∧ (parse tc.function.arguments).isSome) :
    ∃ rs, executeToolAux parse freshId (some reg) calls k = .ok rs
      ∧ rs.length = calls.length
      ∧ rs.map (fun r => r.1.role) = List.replicate calls.length "tool"
      ∧ rs.map (fun r => r.2) = expectedIds freshId calls k
      ∧ rs.map (fun r => r.1.tool_call_id) = expectedIds freshId calls k := by
  induction calls generalizing k with
  | nil => exact ⟨[], rfl, rfl, rfl, rfl, rfl⟩
  | cons tc rest ih =>
    obtain ⟨hname, hparse⟩ := h tc (List.mem_cons_self _ _)
    obtain ⟨rs', heq, hlen, hrole, hids, hids'⟩ :=
      ih (k + 1) (fun tc' htc' => h tc' (List.mem_cons_of_mem _ htc'))
    obtain ⟨args, hargs⟩ := Option.isSome_iff_exists.mp hparse
    have hb : (tc.function.name == "") = false := beq_eq_false_iff_ne.mpr hname
    obtain ⟨c, hstep⟩ := executeToolAux_cons_ok parse freshId reg tc rest k args hb hargs
    rw [heq] at hstep
    refine ⟨(⟨"tool", c, orDefault tc.id (freshId k)⟩, orDefault tc.id (freshId k)) :: rs',
      hstep, ?_, ?_, ?_, ?_⟩
    · simp [hlen]
    · simp [List.replicate_succ, hrole]
    · simp [expectedIds, hids]
    · simp [expectedIds, hids']

/-- Claim C1 witness: two well-formed calls (one generated id, one
transport id; the second tool is unknown) yield exactly two
ToolResults in order. -/
theorem c1_witness :
    ∃ rs, executeToolAux parseFix freshFix (some regFix)
        [⟨none, ⟨"t", "ok"⟩⟩, ⟨some "id2", ⟨"u", "ok"⟩⟩] 0 = .ok rs
      ∧ rs.length = [(⟨none, ⟨"t", "ok"⟩⟩ : ToolCall), ⟨some "id2", ⟨"u", "ok"⟩⟩].length
      ∧ rs.map (fun r => r.1.role)
          = List.replicate [(⟨none, ⟨"t", "ok"⟩⟩ : ToolCall), ⟨some "id2", ⟨"u", "ok"⟩⟩].length "tool"
      ∧ rs.map (fun r => r.2)
          = expectedIds freshFix [⟨none, ⟨"t", "ok"⟩⟩, ⟨some "id2", ⟨"u", "ok"⟩⟩] 0
      ∧ rs.map (fun r => r.1.tool_call_id)
          = expectedIds freshFix [⟨none, ⟨"t", "ok"⟩⟩, ⟨some "id2", ⟨"u", "ok"⟩⟩] 0 :=
  c1_theorem parseFix freshFix regFix
    [⟨none, ⟨"t", "ok"⟩⟩, ⟨some "id2", ⟨"u", "ok"⟩⟩] 0
    (by intro tc htc
        rcases htc with _ | ⟨_, htc⟩
        · exact ⟨by decide, by rfl⟩
        · rcases htc with _ | ⟨_, htc⟩
          · exact ⟨by decide, by rfl⟩
          · cases htc)

/-! ## Claim C5 -/

/-- Claim C5 counterexample: a request whose arguments string is not
valid JSON makes `_execute_tool` raise `json.JSONDecodeError`: no
error-envelope ToolResult is produced for it, and the following
well-formed call is never processed. -/
theorem c5_counterexample :
    executeTool parseFix freshFix [badArgsCall, okCall] (some regFix)
      = .error "json.JSONDecodeError" := rfl

/-- Claim C5 (amended): a ToolCallRequest with a non-empty name whose
`arguments` string fails `json.loads` raises out of `_execute_tool`:
the whole tool-execution loop aborts with the JSON error, producing no
ToolResult for that call nor for any remaining call, instead of being
reported as a per-call execution failure. -/
theorem c5_theorem (parse : String → Option Json) (freshId : Nat → String)
    (tools : Option ToolRegistry) (tc : ToolCall) (rest : List ToolCall) (k : Nat)
    (hname : tc.function.name ≠ "") (hparse : parse tc.function.arguments = none) :
    executeToolAux parse freshId tools (tc :: rest) k = .error "json.JSONDecodeError" := by
  have hb : (tc.function.name == "") = false := beq_eq_false_iff_ne.mpr hname
  simp only [executeToolAux, hb, Bool.false_eq_true, if_false, hparse]

/-- Claim C5 witness. -/
theorem c5_witness :
    executeToolAux parseFix freshFix (some regFix) [badArgsCall, okCall] 0
      = .error "json.JSONDecodeError" :=
  c5_theorem parseFix freshFix (some regFix) badArgsCall [okCall] 0 (by decide) rfl

/-! ## Claim C7 -/

/-- Claim C7 counterexample: the Content Normalizer is not idempotent.
A normalized `input_file` part carries the keys `type`/`file_id`,
none of which the classifier recognises, so a second pass silently
drops it: re-running the normalizer on its own (non-empty) output
returns the empty part list. -/
theorem c7_counterexample :
    normalizeContent (.parts [[("input_file", Json.obj [("file_id", Json.str "f1")])]])
      = .ok [[("type", Json.str "input_file"), ("file_id", Json.str "f1")]]
    ∧ normalizeContent (.parts [[("type", Json.str "input_file"), ("file_id", Json.str "f1")]])
      = .ok []
    ∧ ([[("type", Json.str "input_file"), ("file_id", Json.str "f1")]] : List Dict) ≠ [] :=
  ⟨rfl, rfl, by simp⟩

/-- Claim C7 (amended): the Content Normalizer is idempotent only on
text content.  If every element of a structured content list carries
the `text` key, then the normalized output is a fixed point of the
normalizer; normalized file and image parts, however, carry none of
the recognised keys and are dropped by a second pass. -/
theorem c7_theorem (ps qs : List Dict)
    (h : ∀ p ∈ ps, hasKey p "text" = true)
    (hn : normalizeContent (.parts ps) = .ok qs) :
    normalizeContent (.parts qs) = .ok qs := by
  induction ps generalizing qs with
  | nil =>
    have : qs = [] := by
      have := hn
      simp only [normalizeContent, normalizeParts] at this
      exact (Except.ok.inj this).symm
    simp [this, normalizeContent, normalizeParts]
  | cons p rest ih =>
    obtain ⟨v, hv⟩ := dictGet_of_hasKey (h p (List.mem_cons_self _ _))
    have hp : normalizePart p = .ok (some [("type", Json.str "text"), ("text", v)]) := by
      simp [normalizePart, hv]
    simp only [normalizeContent, normalizeParts, hp] at hn
    cases hrest : normalizeParts rest with
    | error e => rw [hrest] at hn; simp [Bind.bind, Except.bind] at hn
    | ok tail =>
      rw [hrest] at hn
      simp only [Bind.bind, Except.bind, pure, Except.pure] at hn
      have hqs : qs = [("type", Json.str "text"), ("text", v)] :: tail :=
        (Except.ok.inj hn).symm
      have htail : normalizeContent (.parts tail) = .ok tail :=
        ih tail (fun p' hp' => h p' (List.mem_cons_of_mem _ hp')) hrest
      have hpart : normalizePart [("type", Json.str "text"), ("text", v)]
          = .ok (some [("type", Json.str "text"), ("text", v)]) := by
        simp [normalizePart, dictGet, List.find?]
      simp only [normalizeContent] at htail ⊢
      simp [hqs, normalizeParts, hpart, htail, Bind.bind, Except.bind]

/-- Claim C7 witness: a single text part is indeed a fixed point. -/
theorem c7_witness :
    normalizeContent (.parts [[("type", Json.str "text"), ("text", Json.str "hi")]])
      = .ok [[("type", Json.str "text"), ("text", Json.str "hi")]] :=
  c7_theorem [[("text", Json.str "hi")]]
    [[("type", Json.str "text"), ("text", Json.str "hi")]]
    (by decide) rfl

/-! ## Claim C8 -/

/-- Claim C8 counterexample: a structured-content element carrying
none of the recognised keys (`text`, `input_file`, `input_image`) is
silently dropped — normalisation succeeds with an empty part list
instead of failing with a format error. -/
theorem c8_counterexample :
    normalizeContent (.parts [[("foo", Json.num 1)]]) = .ok [] := rfl

/-- Claim C8 (amended): each element of a structured content list is
classified by which recognised key it carries, but an element carrying
none of them is silently skipped (the normaliser of the rest is
unchanged); the format ValueError is raised only when the whole
content is neither a string nor a list. -/
theorem c8_theorem (p : Dict) (rest : List Dict)
    (h1 : hasKey p "text" = false) (h2 : hasKey p "input_file" = false)
    (h3 : hasKey p "input_image" = false) :
    normalizeContent (.parts (p :: rest)) = normalizeContent (.parts rest)
    ∧ normalizeContent .other = .error "ValueError: 无效的消息内容格式" := by
  refine ⟨?_, rfl⟩
  have hp : normalizePart p = .ok none := by
    simp [normalizePart, dictGet_of_not_hasKey h1, dictGet_of_not_hasKey h2,
          dictGet_of_not_hasKey h3]
  show normalizeParts (p :: rest) = normalizeParts rest
  cases hrest : normalizeParts rest with
  | error e => simp [normalizeParts, hp, hrest, Bind.bind, Except.bind]
  | ok tail => simp [normalizeParts, hp, hrest, Bind.bind, Except.bind, pure, Except.pure]

/-- Claim C8 witness. -/
theorem c8_witness :
    normalizeContent (.parts ([("foo", Json.num 1)] :: [[("text", Json.str "x")]]))
      = normalizeContent (.parts [[("text", Json.str "x")]])
    ∧ normalizeContent .other = .error "ValueError: 无效的消息内容格式" :=
  c8_theorem [("foo", Json.num 1)] [[("text", Json.str "x")]] rfl rfl rfl

/-! ## Claim C2 -/

/-- Claim C2 counterexample: tools are NOT omitted from the second
(follow-up) request: `request_params.copy()` keeps the `tools` key, so
a first request carrying tool definitions yields a follow-up request
still carrying them. -/
theorem c2_counterexample :
    (secondRequestParams
      { model := "m", messages := [], stream := true, tools := some [Json.null] } []).tools
      = some [Json.null] := rfl

/-- Claim C2 (amended): the follow-up request is issued with
parameters identical to the first except that the messages are
replaced by the augmented set and streaming is disabled — the tool
definitions are still attached, not omitted.  Only one tool round-trip
is performed per turn: the streaming round-trip runs `_execute_tool`
exactly once, and one non-streaming attempt runs it at most once (a
tool call carried by the second response is never executed). -/
theorem c2_theorem :
    (∀ (rp : RequestParams) (ms : List ApiMsg),
      (secondRequestParams rp ms).model = rp.model
      ∧ (secondRequestParams rp ms).messages = ms
      ∧ (secondRequestParams rp ms).stream = false
      ∧ (secondRequestParams rp ms).max_tokens = rp.max_tokens
      ∧ (secondRequestParams rp ms).top_p = rp.top_p
      ∧ (secondRequestParams rp ms).temperature = rp.temperature
      ∧ (secondRequestParams rp ms).stop = rp.stop
      ∧ (secondRequestParams rp ms).presence_penalty = rp.presence_penalty
      ∧ (secondRequestParams rp ms).frequency_penalty = rp.frequency_penalty
      ∧ (secondRequestParams rp ms).seed = rp.seed
      ∧ (secondRequestParams rp ms).logprobs = rp.logprobs
      ∧ (secondRequestParams rp ms).top_logprobs = rp.top_logprobs
      ∧ (secondRequestParams rp ms).response_format = rp.response_format
      ∧ (secondRequestParams rp ms).tools = rp.tools)
    ∧ (∀ net parse freshId dumps tools st,
        (toolRoundTrip net parse freshId dumps tools st).1.toolExecs = st.toolExecs + 1)
    ∧ (∀ net parse freshId dumps tools rlp st,
        (attemptOnce net parse freshId dumps tools rlp st).1.toolExecs ≤ st.toolExecs + 1) := by
  refine ⟨fun rp ms =>
    ⟨rfl, rfl, rfl, rfl, rfl, rfl, rfl, rfl, rfl, rfl, rfl, rfl, rfl, rfl⟩, ?_, ?_⟩
  · intro net parse freshId dumps tools st
    unfold toolRoundTrip
    dsimp only
    split
    · rfl
    · split
      · rfl
      · split
        · rfl
        · rfl
  · intro net parse freshId dumps tools rlp st
    unfold attemptOnce
    dsimp only
    repeat' split
    all_goals simp

/-! ## Claim C3 -/

/-- Claim C3 counterexample: on the NON-streaming path a final-request
failure after a successful tool round-trip is not downgraded: with
`retries = 1` the turn raises `boom` to the caller and no inline error
fragment is yielded (and no assistant error message recorded —
`yielded` stays empty and the failure slot carries the exception). -/
theorem c3_counterexample :
    (chatApi netC3 parseFix freshFix dumpsFix [] "m" [userTextMsg "hi"] false (some regFix)
      {} 1).2 = some "boom"
    ∧ (chatApi netC3 parseFix freshFix dumpsFix [] "m" [userTextMsg "hi"] false (some regFix)
      {} 1).1.yielded = [] :=
  ⟨rfl, rfl⟩

/-- Claim C3 (amended): only on the STREAMING path is a final-request
failure after a successful tool round-trip downgraded rather than
raised: the error is yielded as an inline error fragment, recorded as
an assistant error message in history, and the generator continues
(`none` in the failure slot).  On the non-streaming path (see the
counterexample) the same failure is caught by the retry loop and
re-raised after exhaustion instead. -/
theorem c3_theorem (net : Nat → Except String Resp) (parse : String → Option Json)
    (freshId : Nat → String) (dumps : Json → String) (tools : Option ToolRegistry)
    (st : TurnState) (rs : List (ToolResponse × String)) (e : String)
    (hexec : executeToolAux parse freshId tools (st.buffer.map bufferedToToolCall) st.uuidCtr
      = .ok rs)
    (hnet : net st.netCalls = .error e) :
    toolRoundTrip net parse freshId dumps tools st
      = ({ st with
           messages := st.messages ++ [toolCallAssistantMsg st.buffer]
             ++ rs.map (toolMessageOf dumps)
             ++ [{ role := "assistant", content := .text ("错误: " ++ e) }],
           yielded := st.yielded ++ [Frag.errorFrag e],
           toolExecs := st.toolExecs + 1,
           netCalls := st.netCalls + 1,
           buffer := [] }, none) := by
  unfold toolRoundTrip
  simp only [hexec, hnet]

/-- Claim C3 witness: a concrete streaming round-trip whose second
request fails with `boom`. -/
theorem c3_witness :
    toolRoundTrip (fun _ => .error "boom") parseFix freshFix dumpsFix (some regFix)
      { messages := [userTextMsg "hi"], buffer := [⟨"id1", "t", "ok"⟩] }
      = ({ messages := [userTextMsg "hi"]
             ++ [toolCallAssistantMsg [⟨"id1", "t", "ok"⟩]]
             ++ [(⟨"tool", Json.str "result", "id1"⟩, "id1")].map (toolMessageOf dumpsFix)
             ++ [{ role := "assistant", content := .text ("错误: " ++ "boom") }],
           yielded := [] ++ [Frag.errorFrag "boom"],
           toolExecs := 0 + 1,
           netCalls := 0 + 1,
           buffer := [],
           uuidCtr := 0,
           assistantContent := "" }, none) :=
  c3_theorem (fun _ => .error "boom") parseFix freshFix dumpsFix (some regFix)
    { messages := [userTextMsg "hi"], buffer := [⟨"id1", "t", "ok"⟩] }
    [(⟨"tool", Json.str "result", "id1"⟩, "id1")] "boom" rfl rfl

/-! ## Claim C9 -/

/-- Claim C9: each supplied out-of-range sampling parameter makes
`_chat_api` raise a ValueError naming that parameter, for every
transport oracle and with zero network calls recorded (so before any
network call); when all five checked parameters are in range (or
unsupplied) validation succeeds and request construction proceeds; and
unsupplied parameters are omitted from the outgoing request rather
than defaulted. -/
theorem c9_theorem (p : ChatParams) :
    (outOfRange p.topp 0 1 = true →
      ∀ net parse freshId dumps chunks model ms stream tools retries,
        chatApi net parse freshId dumps chunks model ms stream tools p retries
          = ({ messages := ms }, some "top_p 必须在 0 到 1 之间"))
    ∧ (outOfRange p.topp 0 1 = false → outOfRange p.temperature 0 2 = true →
      ∀ net parse freshId dumps chunks model ms stream tools retries,
        chatApi net parse freshId dumps chunks model ms stream tools p retries
          = ({ messages := ms }, some "temperature 必须在 0 到 2 之间"))
    ∧ (outOfRange p.topp 0 1 = false → outOfRange p.temperature 0 2 = false →
        outOfRange p.presence_penalty (-2) 2 = true →
      ∀ net parse freshId dumps chunks model ms stream tools retries,
        chatApi net parse freshId dumps chunks model ms stream tools p retries
          = ({ messages := ms }, some "presence_penalty 必须在 -2 到 2 之间"))
    ∧ (outOfRange p.topp 0 1 = false → outOfRange p.temperature 0 2 = false →
        outOfRange p.presence_penalty (-2) 2 = false →
        outOfRange p.frequency_penalty (-2) 2 = true →
      ∀ net parse freshId dumps chunks model ms stream tools retries,
        chatApi net parse freshId dumps chunks model ms stream tools p retries
          = ({ messages := ms }, some "frequency_penalty 必须在 -2 到 2 之间"))
    ∧ (outOfRange p.topp 0 1 = false → outOfRange p.temperature 0 2 = false →
        outOfRange p.presence_penalty (-2) 2 = false →
        outOfRange p.frequency_penalty (-2) 2 = false →
        outOfRangeInt p.logprobs 0 20 = true →
      ∀ net parse freshId dumps chunks model ms stream tools retries,
        chatApi net parse freshId dumps chunks model ms stream tools p retries
          = ({ messages := ms }, some "logprobs 必须在 0 到 20 之间"))
    ∧ (validateParams p = .ok () ↔
        (outOfRange p.topp 0 1 = false ∧ outOfRange p.temperature 0 2 = false
         ∧ outOfRange p.presence_penalty (-2) 2 = false
         ∧ outOfRange p.frequency_penalty (-2) 2 = false
         ∧ outOfRangeInt p.logprobs 0 20 = false))
    ∧ (∀ model ms stream tools,
        (p.topp = none → (buildRequestParams model ms stream p tools).top_p = none)
        ∧ (p.temperature = none → (buildRequestParams model ms stream p tools).temperature = none)
        ∧ (p.presence_penalty = none →
            (buildRequestParams model ms stream p tools).presence_penalty = none)
        ∧ (p.frequency_penalty = none →
            (buildRequestParams model ms stream p tools).frequency_penalty = none)
        ∧ (p.max_output_tokens = none → (buildRequestParams model ms stream p tools).max_tokens = none)
        ∧ (p.stop_sequences = none → (buildRequestParams model ms stream p tools).stop = none)
        ∧ (p.seed = none → (buildRequestParams model ms stream p tools).seed = none)
        ∧ (p.response_format = none →
            (buildRequestParams model ms stream p tools).response_format = none)
        ∧ (p.response_logprobs = none →
            (buildRequestParams model ms stream p tools).logprobs = none
            ∧ (buildRequestParams model ms stream p tools).top_logprobs = none)) := by
  refine ⟨?_, ?_, ?_, ?_, ?_, ?_, ?_⟩
  · intro h1 net parse freshId dumps chunks model ms stream tools retries
    simp [chatApi, validateParams, h1]
  · intro h1 h2 net parse freshId dumps chunks model ms stream tools retries
    simp [chatApi, validateParams, h1, h2]
  · intro h1 h2 h3 net parse freshId dumps chunks model ms stream tools retries
    simp [chatApi, validateParams, h1, h2, h3]
  · intro h1 h2 h3 h4 net parse freshId dumps chunks model ms stream tools retries
    simp [chatApi, validateParams, h1, h2, h3, h4]
  · intro h1 h2 h3 h4 h5 net parse freshId dumps chunks model ms stream tools retries
    simp [chatApi, validateParams, h1, h2, h3, h4, h5]
  · rcases h1 : outOfRange p.topp 0 1 <;>
      rcases h2 : outOfRange p.temperature 0 2 <;>
      rcases h3 : outOfRange p.presence_penalty (-2) 2 <;>
      rcases h4 : outOfRange p.frequency_penalty (-2) 2 <;>
      rcases h5 : outOfRangeInt p.logprobs 0 20 <;>
      simp [validateParams, h1, h2, h3, h4, h5]
  · intro model ms stream tools
    refine ⟨fun h => h, fun h => h, fun h => h, fun h => h, fun h => h, fun h => h,
      fun h => h, ?_, ?_⟩
    · intro h
      simp [buildRequestParams, h]
    · intro h
      exact ⟨h, by simp [buildRequestParams, h]⟩

/-- Claim C9 witness: an out-of-range nucleus probability fails before
any network call; a supplied in-range temperature validates; an
unsupplied nucleus probability is omitted from the request. -/
theorem c9_witness :
    chatApi netErr parseFix freshFix dumpsFix [] "m" [] false none { topp := some 2 } 3
      = ({ messages := [] }, some "top_p 必须在 0 到 1 之间")
    ∧ validateParams { temperature := some 1 } = .ok ()
    ∧ (buildRequestParams "m" [] false {} none).top_p = none :=
  ⟨(c9_theorem { topp := some 2 }).1 (by decide)
      netErr parseFix freshFix dumpsFix [] "m" [] false none 3,
   (c9_theorem { temperature := some 1 }).2.2.2.2.2.1.mpr
      ⟨by decide, by decide, by decide, by decide, by decide⟩,
   ((c9_theorem {}).2.2.2.2.2.2 "m" [] false none).1 rfl⟩

/-! ## History-append monotonicity -/

/-- The history is unchanged. -/
theorem growsFrom_refl (l : List HMsg) : growsFrom l l := ⟨[], by simp⟩

/-- A single append step grows the history. -/
theorem growsFrom_append (l t : List HMsg) : growsFrom l (l ++ t) := ⟨t, rfl⟩

/-- Two append steps grow the history. -/
theorem growsFrom_append2 (l x y : List HMsg) : growsFrom l (l ++ x ++ y) :=
  ⟨x ++ y, by rw [List.append_assoc]⟩

/-- Three append steps grow the history. -/
theorem growsFrom_append3 (l x y z : List HMsg) : growsFrom l (l ++ x ++ y ++ z) :=
  ⟨x ++ (y ++ z), by simp [List.append_assoc]⟩

/-- Growth composes. -/
theorem growsFrom_trans {a b c : List HMsg} : growsFrom a b → growsFrom b c → growsFrom a c
  | ⟨t1, h1⟩, ⟨t2, h2⟩ => ⟨t1 ++ t2, by rw [h2, h1, List.append_assoc]⟩

/-- One non-streaming attempt only appends to the history. -/
theorem attemptOnce_extends (net : Nat → Except String Resp) (parse : String → Option Json)
    (freshId : Nat → String) (dumps : Json → String) (tools : Option ToolRegistry)
    (rlp : Option Bool) (st : TurnState) :
    growsFrom st.messages (attemptOnce net parse freshId dumps tools rlp st).1.messages := by
  unfold attemptOnce
  dsimp only
  repeat' split
  all_goals first
    | exact growsFrom_refl _
    | exact growsFrom_append _ _
    | exact growsFrom_append2 _ _ _
    | exact growsFrom_append3 _ _ _ _

/-- The retry loop only appends to the history when its body does. -/
theorem retryLoop_extends (step : TurnState → TurnState × Option String)
    (hstep : ∀ st, growsFrom st.messages (step st).1.messages) :
    ∀ (n : Nat) (st : TurnState), growsFrom st.messages (retryLoop step n st).1.messages
  | 0, st => growsFrom_refl _
  | 1, st => hstep st
  | n + 2, st => by
    unfold retryLoop
    split
    · next st1 heq =>
      have h1 := hstep st
      rw [heq] at h1
      exact h1
    · next st1 e heq =>
      have h1 := hstep st
      rw [heq] at h1
      exact growsFrom_trans h1 (retryLoop_extends step hstep (n + 1) st1)

/-- Buffering stream tool-call fragments leaves the history alone. -/
theorem bufferCalls_messages (parse : String → Option Json) (freshId : Nat → String) :
    ∀ (l : List (Option DeltaToolCall)) (st : TurnState),
      (bufferCalls parse freshId st l).messages = st.messages := by
  intro l
  induction l with
  | nil => intro st; rfl
  | cons o rest ih =>
    intro st
    rcases o with _ | tc
    · exact ih st
    · show (bufferCalls parse freshId st (some tc :: rest)).messages = st.messages
      unfold bufferCalls
      rcases tc.function with _ | f
      · exact ih st
      · dsimp only
        split
        · exact ih _
        · exact ih _

/-- The streaming tool round-trip only appends to the history. -/
theorem toolRoundTrip_extends (net : Nat → Except String Resp) (parse : String → Option Json)
    (freshId : Nat → String) (dumps : Json → String) (tools : Option ToolRegistry)
    (st : TurnState) :
    growsFrom st.messages (toolRoundTrip net parse freshId dumps tools st).1.messages := by
  unfold toolRoundTrip
  dsimp only
  repeat' split
  all_goals first
    | exact growsFrom_refl _
    | exact growsFrom_append _ _
    | exact growsFrom_append2 _ _ _
    | exact growsFrom_append3 _ _ _ _

/-- The stop/length finish check only appends to the history. -/
theorem finishCheck_extends (c0 : ChunkChoice) (st : TurnState) :
    growsFrom st.messages (finishCheck c0 st).messages := by
  unfold finishCheck
  dsimp only
  repeat' split
  all_goals first
    | exact growsFrom_refl _
    | exact growsFrom_append _ _

/-- The content/tool-call step only appends to the history. -/
theorem streamStepCore_extends (net : Nat → Except String Resp) (parse : String → Option Json)
    (freshId : Nat → String) (dumps : Json → String) (tools : Option ToolRegistry)
    (c0 : ChunkChoice) (st1 : TurnState) :
    growsFrom st1.messages (streamStepCore net parse freshId dumps tools c0 st1).1.messages := by
  have hbuf := bufferCalls_messages parse freshId c0.delta.tool_calls st1
  unfold streamStepCore
  dsimp only
  split
  · exact finishCheck_extends _ _
  · split
    · split
      · split
        · next st3 heq2 =>
          have h1 := toolRoundTrip_extends net parse freshId dumps tools
            (bufferCalls parse freshId st1 c0.delta.tool_calls)
          rw [heq2] at h1
          rw [← hbuf]
          exact growsFrom_trans h1 (finishCheck_extends _ _)
        · next st3 e heq2 =>
          have h1 := toolRoundTrip_extends net parse freshId dumps tools
            (bufferCalls parse freshId st1 c0.delta.tool_calls)
          rw [heq2] at h1
          rw [← hbuf]
          exact h1
      · rw [← hbuf]
        exact finishCheck_extends _ _
    · exact finishCheck_extends _ _

/-- One stream-chunk step only appends to the history. -/
theorem streamStep_extends (net : Nat → Except String Resp) (parse : String → Option Json)
    (freshId : Nat → String) (dumps : Json → String) (tools : Option ToolRegistry)
    (st : TurnState) (ck : Chunk) :
    growsFrom st.messages (streamStep net parse freshId dumps tools st ck).1.messages := by
  unfold streamStep
  dsimp only
  split
  · exact growsFrom_refl _
  · next c0 heq =>
    split
    · exact streamStepCore_extends net parse freshId dumps tools c0 _
    · exact streamStepCore_extends net parse freshId dumps tools c0 _

/-- The whole streaming loop only appends to the history. -/
theorem streamLoop_extends (net : Nat → Except String Resp) (parse : String → Option Json)
    (freshId : Nat → String) (dumps : Json → String) (tools : Option ToolRegistry) :
    ∀ (chunks : List Chunk) (st : TurnState),
      growsFrom st.messages (streamLoop net parse freshId dumps tools chunks st).1.messages := by
  intro chunks
  induction chunks with
  | nil => intro st; exact growsFrom_refl _
  | cons ck rest ih =>
    intro st
    show growsFrom st.messages (streamLoop net parse freshId dumps tools (ck :: rest) st).1.messages
    unfold streamLoop
    split
    · next st1 heq =>
      have h1 := streamStep_extends net parse freshId dumps tools st ck
      rw [heq] at h1
      exact growsFrom_trans h1 (ih st1)
    · next st1 e heq =>
      have h1 := streamStep_extends net parse freshId dumps tools st ck
      rw [heq] at h1
      exact h1

/-! ## Claim C4 -/

/-- Claim C4 counterexample: when a system instruction is supplied,
`chat` inserts a system message at position 0 of the caller's list —
the caller's original list is no longer a prefix of the mutated
list, so the engine did not mutate it by appending only. -/
theorem c4_counterexample :
    ¬ ∃ t, (chat netErr parseFix freshFix dumpsFix [] "m" (.list [userTextMsg "hi"]) false none
        (some "be brief") {} 1).1.messages = [userTextMsg "hi"] ++ t := by
  intro ⟨t, h⟩
  have e : (chat netErr parseFix freshFix dumpsFix [] "m" (.list [userTextMsg "hi"]) false none
      (some "be brief") {} 1).1.messages = [sysTextMsg "be brief", userTextMsg "hi"] := rfl
  rw [e] at h
  injection h with h1 h2
  have h3 := congrArg HMsg.role h1
  simp [sysTextMsg, userTextMsg] at h3

/-- Claim C4 (amended): when no (truthy) system instruction is
supplied, every call of the engine on a caller-supplied message list
mutates it only by appending: on both the streaming and non-streaming
paths, and whether the turn succeeds or raises, the original list is
an initial segment of the mutated list.  (With a system instruction a
system message is inserted at the front first, which breaks this.) -/
theorem c4_theorem (net : Nat → Except String Resp) (parse : String → Option Json)
    (freshId : Nat → String) (dumps : Json → String) (chunks : List Chunk) (model : String)
    (ms : List HMsg) (stream : Bool) (tools : Option ToolRegistry)
    (sysi : Option String) (p : ChatParams) (retries : Nat)
    (h : strTruthy sysi = false) :
    ∃ t, (chat net parse freshId dumps chunks model (.list ms) stream tools sysi p retries).1.messages
      = ms ++ t := by
  have hsetup : chatSetup (.list ms) sysi = ms := by
    unfold chatSetup
    rw [h]
    simp
  unfold chat
  rw [hsetup]
  unfold chatApi
  dsimp only
  split
  · exact ⟨[], by simp⟩
  · split
    · exact ⟨[], by simp⟩
    · split
      · exact streamLoop_extends net parse freshId dumps tools chunks { messages := ms }
      · exact retryLoop_extends _
          (attemptOnce_extends net parse freshId dumps tools p.response_logprobs) retries
          { messages := ms }

/-- Claim C4 witness: with no system instruction the caller's list
comes back extended at the end only. -/
theorem c4_witness :
    ∃ t, (chat netErr parseFix freshFix dumpsFix [] "m" (.list [userTextMsg "q"]) false none
        none {} 1).1.messages = [userTextMsg "q"] ++ t :=
  c4_theorem netErr parseFix freshFix dumpsFix [] "m" [userTextMsg "q"] false none none {} 1 rfl

/-! ## Claim C10 -/

/-- A non-streaming attempt whose first response carries tool calls
runs `_execute_tool` exactly once. -/
theorem attemptOnce_toolExecs_tool (net : Nat → Except String Resp)
    (parse : String → Option Json) (freshId : Nat → String) (dumps : Json → String)
    (tools : Option ToolRegistry) (rlp : Option Bool) (st : TurnState)
    (resp : Resp) (ch : RespChoice)
    (h1 : net st.netCalls = .ok resp) (h2 : resp.choices.head? = some ch)
    (h3 : ch.message.tool_calls ≠ []) :
    (attemptOnce net parse freshId dumps tools rlp st).1.toolExecs = st.toolExecs + 1 := by
  unfold attemptOnce
  rw [h1]
  dsimp only
  rw [h2]
  dsimp only
  rcases hl : ch.message.tool_calls with _ | ⟨tc0, tcRest⟩
  · exact absurd hl h3
  · dsimp only
    repeat' split
    all_goals rfl

/-- Claim C10: on the non-streaming path the whole turn body lies
inside the retry loop, so the turn is not atomic on error.  When an
attempt raises after mutating the state: (1) its history appends
remain (the pre-attempt history is an initial segment of what it left
behind); (2) the loop, given at least two remaining attempts, re-runs
the entire body from the mutated state; (3) if the next attempt's
first response again carries tool calls, the tools are executed
again. -/
theorem c10_theorem (net : Nat → Except String Resp) (parse : String → Option Json)
    (freshId : Nat → String) (dumps : Json → String) (tools : Option ToolRegistry)
    (rlp : Option Bool) (st st1 : TurnState) (e : String) (n : Nat)
    (hfail : attemptOnce net parse freshId dumps tools rlp st = (st1, some e)) :
    (∃ t, st1.messages = st.messages ++ t)
    ∧ retryLoop (attemptOnce net parse freshId dumps tools rlp) (n + 2) st
        = retryLoop (attemptOnce net parse freshId dumps tools rlp) (n + 1) st1
    ∧ (∀ resp ch, net st1.netCalls = .ok resp → resp.choices.head? = some ch →
        ch.message.tool_calls ≠ [] →
        (attemptOnce net parse freshId dumps tools rlp st1).1.toolExecs = st1.toolExecs + 1) := by
  refine ⟨?_, ?_, ?_⟩
  · have h1 := attemptOnce_extends net parse freshId dumps tools rlp st
    rw [hfail] at h1
    exact h1
  · show (match attemptOnce net parse freshId dumps tools rlp st with
      | (st1, none) => (st1, none)
      | (st1, some _) => retryLoop (attemptOnce net parse freshId dumps tools rlp) (n + 1) st1)
      = retryLoop (attemptOnce net parse freshId dumps tools rlp) (n + 1) st1
    rw [hfail]
  · intro resp ch h1 h2 h3
    exact attemptOnce_toolExecs_tool net parse freshId dumps tools rlp st1 resp ch h1 h2 h3

/-- Claim C10 witness: a concrete turn whose first attempt executes a
tool and then fails on the second request; the failed attempt's
appends stay in history and the next attempt executes the tool
again. -/
theorem c10_witness :
    (∃ t, stC10a.messages = stC10.messages ++ t)
    ∧ retryLoop (attemptOnce netC10 parseFix freshFix dumpsFix (some regFix) none) 2 stC10
        = retryLoop (attemptOnce netC10 parseFix freshFix dumpsFix (some regFix) none) 1 stC10a
    ∧ (∀ resp ch, netC10 stC10a.netCalls = .ok resp → resp.choices.head? = some ch →
        ch.message.tool_calls ≠ [] →
        (attemptOnce netC10 parseFix freshFix dumpsFix (some regFix) none stC10a).1.toolExecs
          = stC10a.toolExecs + 1) :=
  c10_theorem netC10 parseFix freshFix dumpsFix (some regFix) none stC10 stC10a "boom" 0 rfl

/-! ## Claim C6 support -/

/-- A falsy optional string is the empty string. -/
theorem orEmpty_of_not_truthy {c : Option String} (h : strTruthy c = false) :
    orEmpty c = "" := by
  rcases c with _ | s
  · rfl
  · unfold strTruthy at h
    simpa using h

/-- Content concatenation distributes over appended fragment lists. -/
theorem contentConcat_append (a b : List Frag) :
    contentConcat (a ++ b) = contentConcat a ++ contentConcat b := by
  induction a with
  | nil => simp [contentConcat]
  | cons f rest ih => cases f <;> simp [contentConcat, ih, String.append_assoc]

/-- The content concatenation of one optional reasoning fragment
followed by one optional content fragment is the (possibly empty)
content. -/
theorem contentConcat_reason_content (r c : Option String) :
    contentConcat ((if strTruthy r then [Frag.reasoning (orEmpty r)] else [])
      ++ (if strTruthy c then [Frag.content (orEmpty c)] else [])) = orEmpty c := by
  cases hr : strTruthy r <;> cases hc : strTruthy c <;>
    simp [contentConcat, orEmpty_of_not_truthy, hc]

/-- Once the attempt body succeeds, the retry loop breaks with its
result, whatever the remaining budget. -/
theorem retryLoop_first_success (step : TurnState → TurnState × Option String)
    (st st1 : TurnState) (h : step st = (st1, none)) :
    ∀ n, retryLoop step (n + 1) st = (st1, none)
  | 0 => h
  | n + 1 => by
    show (match step st with
      | (st1, none) => (st1, none)
      | (st1, some _) => retryLoop step (n + 1) st1) = (st1, none)
    rw [h]

/-- The non-streaming attempt on a response with no tool calls and no
log-probability request: one assistant message is appended carrying
`content or ""`, and the reasoning/content fragments are yielded. -/
theorem attemptOnce_no_tool (net : Nat → Except String Resp) (parse : String → Option Json)
    (freshId : Nat → String) (dumps : Json → String) (tools : Option ToolRegistry)
    (rlp : Option Bool) (st : TurnState) (resp : Resp) (ch : RespChoice)
    (h1 : net st.netCalls = .ok resp) (h2 : resp.choices.head? = some ch)
    (h3 : ch.message.tool_calls = []) (h4 : obTruthy rlp = false) :
    attemptOnce net parse freshId dumps tools rlp st
      = ({ st with
           netCalls := st.netCalls + 1,
           messages := st.messages
             ++ [{ role := "assistant", content := .text (orEmpty ch.message.content) }],
           yielded := st.yielded
             ++ (if strTruthy ch.message.reasoning_content
                 then [Frag.reasoning (orEmpty ch.message.reasoning_content)] else [])
             ++ (if strTruthy ch.message.content
                 then [Frag.content (orEmpty ch.message.content)] else []) }, none) := by
  unfold attemptOnce
  rw [h1]
  dsimp only
  rw [h2]
  dsimp only
  rw [h3]
  dsimp only
  rw [h4]
  simp

/-- The content/tool-call step of a chunk carrying no tool-call
fragments: the (possibly empty) content fragment is yielded and
accumulated, then the finish check runs. -/
theorem streamStepCore_no_tool (net : Nat → Except String Resp) (parse : String → Option Json)
    (freshId : Nat → String) (dumps : Json → String) (tools : Option ToolRegistry)
    (c0 : ChunkChoice) (st1 : TurnState) (htc : c0.delta.tool_calls = []) :
    ∃ g, g = (if strTruthy c0.delta.content
              then [Frag.content (orEmpty c0.delta.content)] else [])
      ∧ streamStepCore net parse freshId dumps tools c0 st1
        = (finishCheck c0
            { st1 with yielded := st1.yielded ++ g,
                       assistantContent := st1.assistantContent ++ contentConcat g }, none) := by
  cases hc : strTruthy c0.delta.content with
  | true =>
    refine ⟨[Frag.content (orEmpty c0.delta.content)], by simp, ?_⟩
    unfold streamStepCore
    simp [hc, contentConcat]
  | false =>
    refine ⟨[], by simp, ?_⟩
    unfold streamStepCore
    simp [hc, htc, contentConcat]

/-- A plain chunk (no finish signal, no tool-call fragments) yields
its reasoning/content fragments and accumulates the content. -/
theorem streamStep_plain (net : Nat → Except String Resp) (parse : String → Option Json)
    (freshId : Nat → String) (dumps : Json → String) (tools : Option ToolRegistry)
    (st : TurnState) (ck : Chunk) (h : plainChunk ck) :
    ∃ fs, streamStep net parse freshId dumps tools st ck
      = ({ st with yielded := st.yielded ++ fs,
                   assistantContent := st.assistantContent ++ contentConcat fs }, none) := by
  obtain ⟨d, hch, htc⟩ := h
  unfold streamStep
  rw [hch]
  dsimp only [List.head?]
  cases hr : strTruthy d.reasoning_content with
  | false =>
    obtain ⟨g, hg, hcore⟩ :=
      streamStepCore_no_tool net parse freshId dumps tools ⟨d, none⟩ st htc
    refine ⟨g, ?_⟩
    simp only [Bool.false_eq_true, if_false]
    rw [hcore]
    rfl
  | true =>
    obtain ⟨g, hg, hcore⟩ :=
      streamStepCore_no_tool net parse freshId dumps tools ⟨d, none⟩
        { st with yielded := st.yielded ++ [Frag.reasoning (orEmpty d.reasoning_content)] } htc
    refine ⟨Frag.reasoning (orEmpty d.reasoning_content) :: g, ?_⟩
    simp only [if_true]
    rw [hcore]
    simp [finishCheck, contentConcat, List.append_assoc]

/-- A run of plain chunks yields fragments, accumulates their content,
and leaves everything else (history included) alone. -/
theorem streamLoop_plain (net : Nat → Except String Resp) (parse : String → Option Json)
    (freshId : Nat → String) (dumps : Json → String) (tools : Option ToolRegistry) :
    ∀ (body : List Chunk), (∀ ck ∈ body, plainChunk ck) →
      ∀ st, ∃ fs, streamLoop net parse freshId dumps tools body st
        = ({ st with yielded := st.yielded ++ fs,
                     assistantContent := st.assistantContent ++ contentConcat fs }, none) := by
  intro body
  induction body with
  | nil =>
    intro _ st
    exact ⟨[], by simp [streamLoop, contentConcat]⟩
  | cons ck rest ih =>
    intro h st
    obtain ⟨fs1, h1⟩ := streamStep_plain net parse freshId dumps tools st ck
      (h ck (List.mem_cons_self _ _))
    obtain ⟨fs2, h2⟩ := ih (fun c hc => h c (List.mem_cons_of_mem _ hc))
      { st with yielded := st.yielded ++ fs1,
                assistantContent := st.assistantContent ++ contentConcat fs1 }
    refine ⟨fs1 ++ fs2, ?_⟩
    show (match streamStep net parse freshId dumps tools st ck with
      | (st1, none) => streamLoop net parse freshId dumps tools rest st1
      | (st1, some e) => (st1, some e)) = _
    rw [h1]
    dsimp only
    rw [h2]
    simp [List.append_assoc, contentConcat_append, String.append_assoc]

/-- A stop/length chunk with no tool-call fragments: its fragments are
yielded, then the accumulated content (when non-empty) is appended as
one assistant message and the accumulator is reset. -/
theorem streamStep_stop (net : Nat → Except String Resp) (parse : String → Option Json)
    (freshId : Nat → String) (dumps : Json → String) (tools : Option ToolRegistry)
    (st : TurnState) (ck : Chunk) (h : stopChunk ck) :
    ∃ fs, streamStep net parse freshId dumps tools st ck
      = ({ st with
           yielded := st.yielded ++ fs,
           messages := if (st.assistantContent ++ contentConcat fs) != "" then
               st.messages ++ [assistantTextMsg (st.assistantContent ++ contentConcat fs)]
             else st.messages,
           assistantContent := "" }, none) := by
  obtain ⟨d, fr, hch, htc, hfr⟩ := h
  have hfin : ((some fr == some "stop") || (some fr == some "length")) = true := by
    rcases hfr with hfr | hfr <;> simp [hfr]
  unfold streamStep
  rw [hch]
  dsimp only [List.head?]
  cases hr : strTruthy d.reasoning_content with
  | false =>
    obtain ⟨g, hg, hcore⟩ :=
      streamStepCore_no_tool net parse freshId dumps tools ⟨d, some fr⟩ st htc
    refine ⟨g, ?_⟩
    simp only [Bool.false_eq_true, if_false]
    rw [hcore]
    simp only [finishCheck, hfin, if_true]
    split <;> simp_all [assistantTextMsg]
  | true =>
    obtain ⟨g, hg, hcore⟩ :=
      streamStepCore_no_tool net parse freshId dumps tools ⟨d, some fr⟩
        { st with yielded := st.yielded ++ [Frag.reasoning (orEmpty d.reasoning_content)] } htc
    refine ⟨Frag.reasoning (orEmpty d.reasoning_content) :: g, ?_⟩
    simp only [if_true]
    rw [hcore]
    simp only [finishCheck, hfin, if_true]
    have hcc : contentConcat (Frag.reasoning (orEmpty d.reasoning_content) :: g)
        = contentConcat g := by simp [contentConcat]
    split <;> simp_all [assistantTextMsg, List.append_assoc]

/-- A successful run of leading chunks lets the loop continue with the
remaining chunks from the state it produced. -/
theorem streamLoop_append_ok (net : Nat → Except String Resp) (parse : String → Option Json)
    (freshId : Nat → String) (dumps : Json → String) (tools : Option ToolRegistry) :
    ∀ (a b : List Chunk) (st st1 : TurnState),
      streamLoop net parse freshId dumps tools a st = (st1, none) →
      streamLoop net parse freshId dumps tools (a ++ b) st
        = streamLoop net parse freshId dumps tools b st1 := by
  intro a
  induction a with
  | nil =>
    intro b st st1 h
    injection h with h1 h2
    rw [← h1]
    rfl
  | cons ck rest ih =>
    intro b st st1 h
    have hu : streamLoop net parse freshId dumps tools (ck :: rest) st
        = (match streamStep net parse freshId dumps tools st ck with
           | (st2, none) => streamLoop net parse freshId dumps tools rest st2
           | (st2, some e) => (st2, some e)) := rfl
    rw [hu] at h
    show (match streamStep net parse freshId dumps tools st ck with
      | (st2, none) => streamLoop net parse freshId dumps tools (rest ++ b) st2
      | (st2, some e) => (st2, some e)) = _
    rcases hs : streamStep net parse freshId dumps tools st ck with ⟨st2, _ | e⟩
    · rw [hs] at h
      exact ih b st2 st1 h
    · rw [hs] at h
      injection h with h1 h2
      cases h2

/-! ## Claim C6 -/

/-- A stream of plain chunks closed by one stop/length chunk: all
fragments are yielded in order; the accumulated content, when
non-empty, is appended as exactly one assistant message. -/
theorem streamLoop_plain_stop (net : Nat → Except String Resp) (parse : String → Option Json)
    (freshId : Nat → String) (dumps : Json → String) (tools : Option ToolRegistry)
    (body : List Chunk) (fin : Chunk)
    (hbody : ∀ ck ∈ body, plainChunk ck) (hstop : stopChunk fin) :
    ∀ st, ∃ fs, streamLoop net parse freshId dumps tools (body ++ [fin]) st
      = ({ st with
           yielded := st.yielded ++ fs,
           messages := if (st.assistantContent ++ contentConcat fs) != "" then
               st.messages ++ [assistantTextMsg (st.assistantContent ++ contentConcat fs)]
             else st.messages,
           assistantContent := "" }, none) := by
  intro st
  obtain ⟨fs1, h1⟩ := streamLoop_plain net parse freshId dumps tools body hbody st
  obtain ⟨fs2, h2⟩ := streamStep_stop net parse freshId dumps tools
    { st with yielded := st.yielded ++ fs1,
              assistantContent := st.assistantContent ++ contentConcat fs1 } fin hstop
  refine ⟨fs1 ++ fs2, ?_⟩
  rw [streamLoop_append_ok net parse freshId dumps tools body [fin] st _ h1]
  show (match streamStep net parse freshId dumps tools
      { st with yielded := st.yielded ++ fs1,
                assistantContent := st.assistantContent ++ contentConcat fs1 } fin with
    | (st2, none) => streamLoop net parse freshId dumps tools [] st2
    | (st2, some e) => (st2, some e)) = _
  rw [h2]
  dsimp only
  simp [streamLoop, contentConcat_append, List.append_assoc, String.append_assoc]

/-- Claim C6 counterexample: a streaming plain-string turn whose
stream carries no content (a lone stop chunk) completes with no
failure, but appends NO assistant message to history — "exactly one
assistant message" fails. -/
theorem c6_counterexample :
    (chat netErr parseFix freshFix dumpsFix [⟨[⟨{}, some "stop"⟩]⟩] "m" (.plain "hi")
        true none none {} 3).1.messages = [userTextMsg "hi"]
    ∧ (chat netErr parseFix freshFix dumpsFix [⟨[⟨{}, some "stop"⟩]⟩] "m" (.plain "hi")
        true none none {} 3).2 = none :=
  ⟨rfl, rfl⟩

/-- Claim C6 (amended): a plain-string `chat` input with no tools and
no failures appends exactly one assistant message to history whose
content equals the concatenation of the yielded content fragments
(reasoning fragments excluded) — provided log-probabilities were not
requested (non-streaming path) and the accumulated content is
non-empty (streaming path); a streaming turn that accumulated no
content appends no assistant message at all. -/
theorem c6_theorem :
    (∀ (net : Nat → Except String Resp) (parse : String → Option Json)
       (freshId : Nat → String) (dumps : Json → String) (model s : String)
       (p : ChatParams) (r : Nat) (resp : Resp) (ch : RespChoice),
      validateParams p = .ok () → obTruthy p.response_logprobs = false →
      net 0 = .ok resp → resp.choices.head? = some ch → ch.message.tool_calls = [] →
      ∃ st : TurnState,
        chat net parse freshId dumps [] model (.plain s) false none none p (r + 1) = (st, none)
        ∧ st.messages = [userTextMsg s, assistantTextMsg (contentConcat st.yielded)])
    ∧ (∀ (net : Nat → Except String Resp) (parse : String → Option Json)
       (freshId : Nat → String) (dumps : Json → String) (model s : String)
       (p : ChatParams) (retries : Nat) (body : List Chunk) (fin : Chunk),
      validateParams p = .ok () →
      (∀ ck ∈ body, plainChunk ck) → stopChunk fin →
      ∃ st : TurnState,
        chat net parse freshId dumps (body ++ [fin]) model (.plain s) true none none p retries
          = (st, none)
        ∧ (contentConcat st.yielded ≠ "" →
            st.messages = [userTextMsg s, assistantTextMsg (contentConcat st.yielded)])
        ∧ (contentConcat st.yielded = "" → st.messages = [userTextMsg s])) := by
  constructor
  · intro net parse freshId dumps model s p r resp ch hv hlp hnet hch htc
    have hstep := attemptOnce_no_tool net parse freshId dumps none p.response_logprobs
      { messages := [userTextMsg s] } resp ch hnet hch htc hlp
    have hloop := retryLoop_first_success
      (attemptOnce net parse freshId dumps none p.response_logprobs)
      { messages := [userTextMsg s] } _ hstep r
    have hpre : chat net parse freshId dumps [] model (.plain s) false none none p (r + 1)
        = retryLoop (attemptOnce net parse freshId dumps none p.response_logprobs) (r + 1)
            { messages := [userTextMsg s] } := by
      show chatApi net parse freshId dumps [] model (chatSetup (.plain s) none) false none p (r + 1)
        = _
      rw [show chatSetup (ChatInput.plain s) none = [userTextMsg s] from rfl]
      unfold chatApi
      dsimp only
      rw [hv]
      dsimp only
      rw [show buildApiMessages [userTextMsg s]
        = .ok [⟨"user", [[("type", Json.str "text"), ("text", Json.str s)]], none, none⟩] from rfl]
      dsimp only
      simp only [Bool.false_eq_true, if_false]
    exact ⟨_, hpre.trans hloop, by simp [assistantTextMsg, contentConcat_reason_content]⟩
  · intro net parse freshId dumps model s p retries body fin hv hbody hstop
    obtain ⟨fs, hrun⟩ := streamLoop_plain_stop net parse freshId dumps none body fin hbody hstop
      { messages := [userTextMsg s] }
    have hpre : chat net parse freshId dumps (body ++ [fin]) model (.plain s) true none none
        p retries
        = streamLoop net parse freshId dumps none (body ++ [fin]) { messages := [userTextMsg s] } := by
      show chatApi net parse freshId dumps (body ++ [fin]) model (chatSetup (.plain s) none)
        true none p retries = _
      rw [show chatSetup (ChatInput.plain s) none = [userTextMsg s] from rfl]
      unfold chatApi
      dsimp only
      rw [hv]
      dsimp only
      rw [show buildApiMessages [userTextMsg s]
        = .ok [⟨"user", [[("type", Json.str "text"), ("text", Json.str s)]], none, none⟩] from rfl]
      dsimp only
      simp only [if_true]
    refine ⟨_, hpre.trans hrun, ?_, ?_⟩
    · intro hne
      simp only at hne ⊢
      have hne' : (contentConcat fs != "") = true := by
        simpa [bne_iff_ne] using hne
      simp [hne', assistantTextMsg]
    · intro heq
      simp only at heq ⊢
      have heq' : (contentConcat fs != "") = false := by
        simpa [bne_iff_ne] using heq
      simp [heq']

/-- Claim C6 witness: a concrete non-streaming turn and a concrete
two-chunk streaming turn, each appending one assistant message whose
content is the concatenation of the yielded content fragments. -/
theorem c6_witness :
    (∃ st : TurnState,
      chat (fun _ => .ok respFinal) parseFix freshFix dumpsFix [] "m" (.plain "hi") false none
          none {} (0 + 1) = (st, none)
      ∧ st.messages = [userTextMsg "hi", assistantTextMsg (contentConcat st.yielded)])
    ∧ (∃ st : TurnState,
      chat netErr parseFix freshFix dumpsFix
          ([⟨[⟨{ content := some "hel" }, none⟩]⟩] ++ [⟨[⟨{ content := some "lo" }, some "stop"⟩]⟩])
          "m" (.plain "hi") true none none {} 3 = (st, none)
      ∧ (contentConcat st.yielded ≠ "" →
          st.messages = [userTextMsg "hi", assistantTextMsg (contentConcat st.yielded)])
      ∧ (contentConcat st.yielded = "" → st.messages = [userTextMsg "hi"])) :=
  ⟨c6_theorem.1 (fun _ => .ok respFinal) parseFix freshFix dumpsFix "m" "hi" {} 0 respFinal
      { message := { content := some "done" } } rfl rfl rfl rfl rfl,
   c6_theorem.2 netErr parseFix freshFix dumpsFix "m" "hi" {} 3
      [⟨[⟨{ content := some "hel" }, none⟩]⟩] ⟨[⟨{ content := some "lo" }, some "stop"⟩]⟩ rfl
      (by intro ck hck
          rw [List.mem_singleton] at hck
          subst hck
          exact ⟨{ content := some "hel" }, rfl, rfl⟩)
      ⟨{ content := some "lo" }, "stop", rfl, rfl, Or.inl rfl⟩⟩

end OpenAIApi
